import Mathlib

/-!
Verification of the Piggdekk Support Dashboard (src/app.py).

The pandas data frames are embedded shallowly: a frame is an ordered list of
column names together with rows of cells; a cell is a string, an integer,
a boolean, or the missing value NaN (numeric payments are modelled as
integers).  `pd.read_csv(path, encoding=enc, sep=None, engine="python")` is
modelled abstractly, as a function from the attempted encoding to an optional
frame (`none` standing for a UnicodeDecodeError); a concrete byte-level
instantiation of that function (UTF-8 / UTF-8-BOM / Latin-1 decoding followed
by delimiter sniffing) is developed further below for the
encoding-independence property.
-/

/-- A pandas scalar cell: string, integer, boolean, or missing (NaN). -/
inductive Cell where
  | str : String → Cell
  | num : Int → Cell
  | bool : Bool → Cell
  | nan : Cell
deriving DecidableEq, Repr

/-- A pandas DataFrame: ordered column names and rows of cells.
Each row is positionally aligned with `cols`. -/
structure DFrame where
  cols : List String
  rows : List (List Cell)
deriving DecidableEq, Repr

/-- Look a cell up in a row by column name (positional lookup through the
frame's column list, as `row[col]` does through a frame's columns). -/
def cellAt (cols : List String) (row : List Cell) (c : String) : Cell :=
  match cols.findIdx? (fun x => decide (x = c)) with
  | some i => row.getD i Cell.nan
  | none => Cell.nan

/-- The encodings `read_csv_flexible` tries, in source order:
`encodings = ["utf-8-sig", "utf-8", "latin-1"]`. -/
inductive Enc where
  | utf8sig : Enc
  | utf8 : Enc
  | latin1 : Enc
deriving DecidableEq, Repr

/-- The errors `read_csv_flexible` catches and stores in `last_error`:
a `UnicodeDecodeError` from decoding with a given encoding, or the
`KeyError` raised for missing required columns, carrying the missing
columns, the file name (`path.name`) and the columns actually found. -/
inductive ReadErr where
  | decodeErr : Enc → ReadErr
  | missingCols : List String → String → List String → ReadErr
deriving DecidableEq, Repr

/-- The message of the missing-columns `KeyError`:
`f"Missing columns {missing} in file {path.name}. Current columns are: {cols}"`. -/
def errMessage : ReadErr → String
  | ReadErr.decodeErr _ => "UnicodeDecodeError"
  | ReadErr.missingCols missing name cols =>
      "Missing columns " ++ toString missing ++ " in file " ++ name ++
        ". Current columns are: " ++ toString cols

/-- A file as `read_csv_flexible` sees it: its name, and the result of
`pd.read_csv(path, encoding=enc, sep=None, engine="python")` for each
attempted encoding (`none` = UnicodeDecodeError). -/
structure PFile where
  name : String
  decode : Enc → Option DFrame

/-- One iteration of the encoding loop of `read_csv_flexible`: parse with the
given encoding, then check `missing = [c for c in required_cols if c not in
df.columns]`; raise the `KeyError` if `missing` is non-empty, else return the
frame.  `required_cols = None` is modelled as the empty list. -/
def tryEncoding (f : PFile) (required : List String) (e : Enc) :
    Except ReadErr DFrame :=
  match f.decode e with
  | none => Except.error (ReadErr.decodeErr e)
  | some df =>
    let missing := required.filter (fun c => decide (c ∉ df.cols))
    if missing.isEmpty then Except.ok df
    else Except.error (ReadErr.missingCols missing f.name df.cols)

/-- `read_csv_flexible` (src/app.py, lines 17–40): loop over
`["utf-8-sig", "utf-8", "latin-1"]`, return the first attempt that parses
and has all required columns; a caught error is stored in `last_error` and
the next encoding is tried; if every attempt fails, `raise last_error`
re-raises the error of the final (latin-1) attempt. -/
def read_csv_flexible (f : PFile) (required : List String) :
    Except ReadErr DFrame :=
  match tryEncoding f required Enc.utf8sig with
  | Except.ok df => Except.ok df
  | Except.error _ =>
    match tryEncoding f required Enc.utf8 with
    | Except.ok df => Except.ok df
    | Except.error _ =>
      match tryEncoding f required Enc.latin1 with
      | Except.ok df => Except.ok df
      | Except.error e3 => Except.error e3

/-!
## Dataset loaders, merger, filter engine, KPIs
-/

/-- The required-column list passed by `load_support_data`. -/
def supportRequired : List String :=
  ["municipality", "county", "has_support", "payment_per_tire", "max_tires",
   "max_total_nok", "period_start", "period_end", "lat", "lon", "info_url"]

/-- The required-column list passed by `load_contact_data`, also the column
shape of the empty frame it substitutes for an absent file. -/
def contactRequired : List String :=
  ["municipality", "service_name", "phone", "website"]

/-- Python truthiness, as `astype(bool)` applies it element-wise to an
object column: `bool("")` is `False`, any other string is `True`,
`bool(0)` is `False`, other numbers `True`, and `bool(nan)` is `True`. -/
def pyBool : Cell → Bool
  | Cell.str s => decide (s ≠ "")
  | Cell.num n => decide (n ≠ 0)
  | Cell.bool b => b
  | Cell.nan => true

/-- `df[col] = df[col].astype(bool)`: replace every cell of column `col`
by its truthiness as a boolean cell.  Cells of other columns and the
column list are untouched. -/
def astypeBool (df : DFrame) (col : String) : DFrame :=
  match df.cols.findIdx? (fun x => decide (x = col)) with
  | none => df
  | some i =>
      { cols := df.cols,
        rows := df.rows.map (fun r =>
          r.mapIdx (fun j c => if j = i then Cell.bool (pyBool c) else c)) }

/-- The environment the loaders read: the two files and whether the
contacts file exists on disk (`CONTACTS_FILE.exists()`). -/
structure Env where
  supportFile : PFile
  contactsFile : PFile
  contactsExists : Bool

/-- `load_support_data` (src/app.py, lines 47–65): read the support file
with the eleven required columns, then coerce `has_support` with
`astype(bool)`. -/
def load_support_data (env : Env) : Except ReadErr DFrame :=
  match read_csv_flexible env.supportFile supportRequired with
  | Except.error e => Except.error e
  | Except.ok df => Except.ok (astypeBool df "has_support")

/-- `load_contact_data` (src/app.py, lines 69–79): if the contacts file
does not exist, return an empty frame with exactly the four contact
columns; otherwise read the file with those required columns. -/
def load_contact_data (env : Env) : Except ReadErr DFrame :=
  if env.contactsExists then
    read_csv_flexible env.contactsFile contactRequired
  else
    Except.ok { cols := contactRequired, rows := [] }

/-- The columns of the right frame as a left merge names them: the join
key is dropped, and a right column whose name collides with a left column
gets the right suffix (here `"_contact"`; the left suffix is empty). -/
def mergeRightCols (leftCols rightCols : List String) (key : String) :
    List String :=
  (rightCols.filter (fun c => decide (c ≠ key))).map
    (fun c => if c ∈ leftCols then c ++ "_contact" else c)

/-- The contribution of one left row to `left.merge(right, on=key,
how="left")`: one merged row per right row with an equal key cell, or a
single row padded with NaN in every right column when no right row
hits. -/
def mergeRow (leftCols : List String) (rightCols : List String)
    (key : String) (rightRows : List (List Cell)) (lrow : List Cell) :
    List (List Cell) :=
  let kval := cellAt leftCols lrow key
  let dataCols := rightCols.filter (fun c => decide (c ≠ key))
  let hits := rightRows.filter (fun rrow => decide (cellAt rightCols rrow key = kval))
  match hits with
  | [] => [lrow ++ dataCols.map (fun _ => Cell.nan)]
  | _ => hits.map (fun rrow => lrow ++ dataCols.map (cellAt rightCols rrow))

/-- `left.merge(right, on="municipality", how="left",
suffixes=("", "_contact"))`: every left row is kept; matching right rows
fan out; unmatched left rows get NaN right fields. -/
def pdMerge (left right : DFrame) (key : String) : DFrame :=
  { cols := left.cols ++ mergeRightCols left.cols right.cols key,
    rows := left.rows.flatMap (mergeRow left.cols right.cols key right.rows) }

/-- `build_merged_data` (src/app.py, lines 95–106): load both datasets and
left-join them on municipality name. -/
def build_merged_data (env : Env) : Except ReadErr DFrame :=
  match load_support_data env with
  | Except.error e => Except.error e
  | Except.ok support =>
    match load_contact_data env with
    | Except.error e => Except.error e
    | Except.ok contacts => Except.ok (pdMerge support contacts "municipality")

/-- The sidebar filter block of `main` (src/app.py, lines 144–153):
start from a copy of the merged frame, restrict to the selected county
unless it is `"All"`, then restrict by the support tri-state
(`has_support == True` for `"With support"`, `== False` for
`"Without support"`, no restriction for `"All"`). -/
def applyFilters (df : DFrame) (selectedCounty supportFilter : String) :
    DFrame :=
  let d1 :=
    if selectedCounty ≠ "All" then
      { cols := df.cols,
        rows := df.rows.filter
          (fun r => decide (cellAt df.cols r "county" = Cell.str selectedCounty)) }
    else df
  if supportFilter = "With support" then
    { cols := d1.cols,
      rows := d1.rows.filter
        (fun r => decide (cellAt d1.cols r "has_support" = Cell.bool true)) }
  else if supportFilter = "Without support" then
    { cols := d1.cols,
      rows := d1.rows.filter
        (fun r => decide (cellAt d1.cols r "has_support" = Cell.bool false)) }
  else d1

/-- `filtered_df[filtered_df["has_support"] == True]`, the supported-only
subset the KPI block computes (src/app.py, line 171). -/
def withSupportRows (view : DFrame) : List (List Cell) :=
  view.rows.filter (fun r => decide (cellAt view.cols r "has_support" = Cell.bool true))

/-- `with_support_df["payment_per_tire"].dropna()`: the payment cells of
the supported rows with the NaN entries removed. -/
def validPayments (view : DFrame) : List Cell :=
  ((withSupportRows view).map (fun r => cellAt view.cols r "payment_per_tire")).filter
    (fun c => decide (c ≠ Cell.nan))

/-- `Series.max` over a non-empty sequence of cells, reading each cell's
numeric value (non-numeric cells read as 0; the KPI theorems assume a
numeric column, as pandas does). -/
def seriesMax (x : Cell) (xs : List Cell) : Int :=
  xs.foldl (fun a c => max a (match c with | Cell.num n => n | _ => 0))
    (match x with | Cell.num n => n | _ => 0)

/-- The maximum-payment KPI (src/app.py, lines 174–179): if the non-null
supported payments are non-empty, `int(valid_payments.max())`, shown as a
number of NOK; otherwise the `"-"` sentinel, modelled as `none`. -/
def kpiMaxPayment (view : DFrame) : Option Int :=
  match validPayments view with
  | [] => none
  | x :: xs => some (seriesMax x xs)

/-!
## Byte-level model of `pd.read_csv(path, encoding=enc, sep=None)`

Text is a list of Unicode code points, a file a list of bytes.  This
instantiates the abstract per-encoding decode of `PFile` for the
encoding/delimiter-independence property: UTF-8 and Latin-1 decoding follow
the codecs Python uses for `"utf-8"` and `"latin-1"`, `"utf-8-sig"` strips a
leading byte-order mark, and the field delimiter is sniffed from the decoded
text.
-/

/-- The UTF-8 byte-order mark `EF BB BF`, which the `utf-8-sig` codec
strips when present. -/
def bomBytes : List Nat := [239, 187, 191]

/-- UTF-8 encoding of one code point (1–4 bytes). -/
def utf8EncodeChar (c : Nat) : List Nat :=
  if c < 128 then [c]
  else if c < 2048 then [192 + c / 64, 128 + c % 64]
  else if c < 65536 then [224 + c / 4096, 128 + (c / 64) % 64, 128 + c % 64]
  else [240 + c / 262144, 128 + (c / 4096) % 64, 128 + (c / 64) % 64, 128 + c % 64]

/-- UTF-8 encoding of a text. -/
def utf8Encode (s : List Nat) : List Nat := s.flatMap utf8EncodeChar

/-- Whether a byte is a UTF-8 continuation byte (`10xxxxxx`). -/
def isCont (b : Nat) : Bool := decide (128 ≤ b) && decide (b < 192)

/-- Decode one UTF-8 sequence from a lead byte and the following bytes,
returning the code point and the remaining bytes; `none` on a malformed
sequence (invalid lead, truncation, overlong form, surrogate, out of
range), as Python's strict `utf-8` codec rejects them. -/
def utf8DecodeOne (b : Nat) (bs : List Nat) : Option (Nat × List Nat) :=
  if b < 128 then some (b, bs)
  else if 194 ≤ b ∧ b ≤ 223 then
    match bs with
    | b1 :: rest => if isCont b1 then some ((b - 192) * 64 + (b1 - 128), rest) else none
    | [] => none
  else if 224 ≤ b ∧ b ≤ 239 then
    match bs with
    | b1 :: b2 :: rest =>
      if isCont b1 && isCont b2 then
        let c := (b - 224) * 4096 + (b1 - 128) * 64 + (b2 - 128)
        if 2048 ≤ c ∧ ¬(55296 ≤ c ∧ c ≤ 57343) then some (c, rest) else none
      else none
    | _ => none
  else if 240 ≤ b ∧ b ≤ 244 then
    match bs with
    | b1 :: b2 :: b3 :: rest =>
      if isCont b1 && isCont b2 && isCont b3 then
        let c := (b - 240) * 262144 + (b1 - 128) * 4096 + (b2 - 128) * 64 + (b3 - 128)
        if 65536 ≤ c ∧ c ≤ 1114111 then some (c, rest) else none
      else none
    | _ => none
  else none

/-- Fuelled UTF-8 decoding loop; each step consumes at least one byte, so
fuel equal to the byte count suffices. -/
def utf8DecodeAux : Nat → List Nat → Option (List Nat)
  | _, [] => some []
  | 0, _ :: _ => none
  | fuel + 1, b :: bs =>
    match utf8DecodeOne b bs with
    | none => none
    | some (c, rest) => (utf8DecodeAux fuel rest).map (fun t => c :: t)

/-- Strict UTF-8 decoding of a byte list: `none` on any malformed
sequence (a `UnicodeDecodeError`). -/
def utf8Decode (bs : List Nat) : Option (List Nat) := utf8DecodeAux bs.length bs

/-- Decoding a byte list with one of the three attempted codecs:
`utf-8-sig` strips a leading BOM then decodes UTF-8 strictly, `utf-8`
decodes strictly, and `latin-1` maps every byte to the code point of the
same value and never fails. -/
def decodeBytes : Enc → List Nat → Option (List Nat)
  | Enc.utf8sig, bs => utf8Decode (if bs.take 3 = bomBytes then bs.drop 3 else bs)
  | Enc.utf8, bs => utf8Decode bs
  | Enc.latin1, bs => some bs

/-- Join fields (or lines) with a single separator code point. -/
def joinWith (d : Nat) : List (List Nat) → List Nat
  | [] => []
  | [f] => f
  | f :: g :: rest => f ++ d :: joinWith d (g :: rest)

/-- Serialize one CSV record: its fields joined by the delimiter. -/
def serializeLine (d : Nat) (fields : List (List Nat)) : List Nat :=
  joinWith d fields

/-- Serialize a whole CSV text: records joined by newline (code point 10),
without a trailing newline. -/
def serializeCsv (d : Nat) (content : List (List (List Nat))) : List Nat :=
  joinWith 10 (content.map (serializeLine d))

/-- Whether a candidate delimiter occurs a consistent positive number of
times on every line of the decoded text. -/
def sniffConsistent (d : Nat) (lines : List (List Nat)) : Bool :=
  match lines with
  | [] => false
  | l0 :: rest =>
    decide (0 < l0.count d) && rest.all (fun l => decide (l.count d = l0.count d))

/-- Modelled from the spec: the delimiter sniffing pandas performs for
`sep=None` lives in the external `csv.Sniffer`, not in this repository;
per the spec it "must sniff among common separators such as comma,
semicolon, tab".  The model picks, in the sniffer's preference order
comma, tab, semicolon, the first candidate occurring a consistent
positive number of times on every line. -/
def sniffDelim (text : List Nat) : Option Nat :=
  [44, 9, 59].find? (fun d => sniffConsistent d (text.splitOn 10))

/-- A field as a Lean string (code points to characters). -/
def natsToString (l : List Nat) : String := String.mk (l.map Char.ofNat)

/-- The byte-level `pd.read_csv`: decode with the requested codec, sniff
the delimiter, split the text into records and fields, and build the frame
with the first record as header.  Cells stay raw strings: pandas' dtype
inference is a deterministic function of the raw fields and is irrelevant
to the table-equality property this model serves.  A sniffing failure
aborts the attempt (not exercised below: sniffing succeeds on every input
these theorems touch). -/
def pdReadCsvBytes (bs : List Nat) (e : Enc) : Option DFrame :=
  match decodeBytes e bs with
  | none => none
  | some text =>
    match sniffDelim text with
    | none => none
    | some d =>
      match (text.splitOn 10).map (fun line => line.splitOn d) with
      | [] => none
      | header :: dataRows =>
          some { cols := header.map natsToString,
                 rows := dataRows.map (fun r => r.map (fun f => Cell.str (natsToString f))) }

/-- A concrete on-disk file: its name and raw bytes, decoded per attempt
by the byte-level `pd.read_csv`. -/
def csvFile (name : String) (bs : List Nat) : PFile :=
  { name := name, decode := fun e => pdReadCsvBytes bs e }

/-- Writing a logical CSV content to bytes in a given encoding with a
given delimiter: serialize the text, then encode it (UTF-8-BOM prepends
the BOM; Latin-1 writes each code point below 256 as the byte of the same
value). -/
def encodeFile (content : List (List (List Nat))) (e : Enc) (d : Nat) :
    List Nat :=
  let text := serializeCsv d content
  match e with
  | Enc.utf8sig => bomBytes ++ utf8Encode text
  | Enc.utf8 => utf8Encode text
  | Enc.latin1 => text

/-- The logical table of a CSV content: first record as header, remaining
records as string rows. -/
def tableOf (content : List (List (List Nat))) : DFrame :=
  match content with
  | [] => { cols := [], rows := [] }
  | header :: dataRows =>
      { cols := header.map natsToString,
        rows := dataRows.map (fun r => r.map (fun f => Cell.str (natsToString f))) }

/-- A code point that may appear in a field of a well-formed ASCII CSV
content: ASCII, and not a newline, carriage return, or any of the three
candidate delimiters. -/
def goodChar (c : Nat) : Bool :=
  decide (c < 128) && decide (c ≠ 10) && decide (c ≠ 13) &&
    decide (c ≠ 44) && decide (c ≠ 9) && decide (c ≠ 59)

/-- Well-formed ASCII CSV content: non-empty, at least two columns, every
record of the same width, every field made of `goodChar` code points. -/
def wfAscii (content : List (List (List Nat))) : Bool :=
  match content with
  | [] => false
  | l0 :: rest =>
    decide (2 ≤ l0.length) &&
      (l0 :: rest).all (fun line =>
        decide (line.length = l0.length) && line.all (fun f => f.all goodChar))

/-!
## Helper lemmas and equality instances
-/

instance : DecidableEq (Except ReadErr DFrame) := fun a b =>
  match a, b with
  | Except.error x, Except.error y =>
    if h : x = y then isTrue (by rw [h]) else isFalse (by intro hc; cases hc; exact h rfl)
  | Except.ok x, Except.ok y =>
    if h : x = y then isTrue (by rw [h]) else isFalse (by intro hc; cases hc; exact h rfl)
  | Except.error _, Except.ok _ => isFalse (by intro hc; cases hc)
  | Except.ok _, Except.error _ => isFalse (by intro hc; cases hc)

/-- The missing-column list of an attempt is empty exactly when every
required column is present. -/
lemma filter_notin_eq_nil_iff (required cols : List String) :
    required.filter (fun c => decide (c ∉ cols)) = [] ↔ ∀ c ∈ required, c ∈ cols := by
  rw [List.filter_eq_nil_iff]
  constructor
  · intro h c hc
    have := h c hc
    simpa using this
  · intro h c hc
    simpa using h c hc

/-- An attempt on a parse containing every required column succeeds with
that parse. -/
lemma tryEncoding_ok_of (f : PFile) (required : List String) (e : Enc)
    (df : DFrame) (hdec : f.decode e = some df)
    (hall : ∀ c ∈ required, c ∈ df.cols) :
    tryEncoding f required e = Except.ok df := by
  have hnil : required.filter (fun c => decide (c ∉ df.cols)) = [] :=
    (filter_notin_eq_nil_iff required df.cols).2 hall
  unfold tryEncoding
  rw [hdec]
  simp only []
  rw [hnil]
  simp

/-- A successful attempt comes from a successful decode whose columns
include every required column. -/
lemma tryEncoding_ok_inv (f : PFile) (required : List String) (e : Enc)
    (df : DFrame) (h : tryEncoding f required e = Except.ok df) :
    f.decode e = some df ∧ ∀ c ∈ required, c ∈ df.cols := by
  unfold tryEncoding at h
  cases hdec : f.decode e with
  | none => rw [hdec] at h; cases h
  | some df0 =>
    rw [hdec] at h
    simp only [] at h
    by_cases hall : ∀ c ∈ required, c ∈ df0.cols
    · have hnil : required.filter (fun c => decide (c ∉ df0.cols)) = [] :=
        (filter_notin_eq_nil_iff required df0.cols).2 hall
      rw [hnil] at h
      simp only [List.isEmpty_nil, if_true] at h
      have hdf : df0 = df := by injection h
      subst hdf
      exact ⟨rfl, hall⟩
    · have hne : required.filter (fun c => decide (c ∉ df0.cols)) ≠ [] :=
        fun hnil => hall ((filter_notin_eq_nil_iff required df0.cols).1 hnil)
      have hemp : (required.filter (fun c => decide (c ∉ df0.cols))).isEmpty = false := by
        simpa [List.isEmpty_iff] using hne
      rw [hemp] at h
      simp at h

/-- An attempt succeeds exactly on a parse whose columns include every
required column, and then returns that parse. -/
lemma tryEncoding_ok_iff (f : PFile) (required : List String) (e : Enc)
    (df : DFrame) (hdec : f.decode e = some df) :
    (tryEncoding f required e = Except.ok df ↔ ∀ c ∈ required, c ∈ df.cols) := by
  constructor
  · intro h
    exact (tryEncoding_ok_inv f required e df h).2
  · intro hall
    exact tryEncoding_ok_of f required e df hdec hall

/-- A successful flexible read comes from one of the three decodings and
contains every required column. -/
lemma read_ok_required (f : PFile) (required : List String) (df : DFrame)
    (h : read_csv_flexible f required = Except.ok df) :
    (∃ e : Enc, f.decode e = some df) ∧ ∀ c ∈ required, c ∈ df.cols := by
  unfold read_csv_flexible at h
  cases h1 : tryEncoding f required Enc.utf8sig with
  | ok df1 =>
    rw [h1] at h; cases h
    exact ⟨⟨Enc.utf8sig, (tryEncoding_ok_inv _ _ _ _ h1).1⟩, (tryEncoding_ok_inv _ _ _ _ h1).2⟩
  | error e1 =>
    rw [h1] at h
    cases h2 : tryEncoding f required Enc.utf8 with
    | ok df2 =>
      rw [h2] at h; cases h
      exact ⟨⟨Enc.utf8, (tryEncoding_ok_inv _ _ _ _ h2).1⟩, (tryEncoding_ok_inv _ _ _ _ h2).2⟩
    | error e2 =>
      rw [h2] at h
      cases h3 : tryEncoding f required Enc.latin1 with
      | ok df3 =>
        rw [h3] at h; cases h
        exact ⟨⟨Enc.latin1, (tryEncoding_ok_inv _ _ _ _ h3).1⟩, (tryEncoding_ok_inv _ _ _ _ h3).2⟩
      | error e3 => rw [h3] at h; cases h

/-!
## C1: first-success semantics of the flexible reader
-/

/-- C1: `read_csv_flexible` tries the encodings in the fixed order
utf-8-sig, utf-8, latin-1, and returns the table of the first attempt that
both decodes and contains every required column; a failed earlier attempt
(including a missing-required-column failure, which is an `Except.error`
like a decode failure) is not fatal and the next encoding is tried;
moreover an attempt succeeds exactly when its parse contains every
required column, and then the returned table is that parse. -/
theorem read_csv_flexible_first_success (f : PFile) (required : List String) :
    (∀ df, tryEncoding f required Enc.utf8sig = Except.ok df →
      read_csv_flexible f required = Except.ok df) ∧
    (∀ e1 df, tryEncoding f required Enc.utf8sig = Except.error e1 →
      tryEncoding f required Enc.utf8 = Except.ok df →
      read_csv_flexible f required = Except.ok df) ∧
    (∀ e1 e2 df, tryEncoding f required Enc.utf8sig = Except.error e1 →
      tryEncoding f required Enc.utf8 = Except.error e2 →
      tryEncoding f required Enc.latin1 = Except.ok df →
      read_csv_flexible f required = Except.ok df) ∧
    (∀ e df, f.decode e = some df →
      (tryEncoding f required e = Except.ok df ↔ ∀ c ∈ required, c ∈ df.cols)) := by
  refine ⟨?_, ?_, ?_, ?_⟩
  · intro df h1
    unfold read_csv_flexible
    rw [h1]
  · intro e1 df h1 h2
    unfold read_csv_flexible
    rw [h1, h2]
  · intro e1 e2 df h1 h2 h3
    unfold read_csv_flexible
    rw [h1, h2, h3]
  · intro e df hdec
    exact tryEncoding_ok_iff f required e df hdec

/-- Witness file for C1: the first encoding parses but misses the required
column (a non-fatal failure), the second parses with it. -/
def c1File : PFile :=
  { name := "w1.csv",
    decode := fun e =>
      match e with
      | Enc.utf8sig => some { cols := ["b"], rows := [[Cell.num 2]] }
      | Enc.utf8 => some { cols := ["a", "b"], rows := [[Cell.num 1, Cell.num 2]] }
      | Enc.latin1 => some { cols := ["a", "b"], rows := [[Cell.num 1, Cell.num 2]] } }

theorem read_csv_flexible_first_success_witness :
    read_csv_flexible c1File ["a"] =
      Except.ok { cols := ["a", "b"], rows := [[Cell.num 1, Cell.num 2]] } :=
  (read_csv_flexible_first_success c1File ["a"]).2.1
    (ReadErr.missingCols ["a"] "w1.csv" ["b"])
    { cols := ["a", "b"], rows := [[Cell.num 1, Cell.num 2]] }
    (by decide) (by decide)

/-!
## C2: last-error semantics and the missing-column message
-/

/-- C2: if all three encoding attempts fail, `read_csv_flexible` raises
the last encountered error (the latin-1 attempt's); and when that attempt
parsed a table in which exactly one required column is missing, the raised
error carries exactly that column, the file name, and the columns actually
found, and its message names them. -/
theorem read_csv_flexible_last_error (f : PFile) (required : List String)
    (e1 e2 e3 : ReadErr)
    (h1 : tryEncoding f required Enc.utf8sig = Except.error e1)
    (h2 : tryEncoding f required Enc.utf8 = Except.error e2)
    (h3 : tryEncoding f required Enc.latin1 = Except.error e3) :
    read_csv_flexible f required = Except.error e3 ∧
    ∀ df r, f.decode Enc.latin1 = some df →
      required.filter (fun c => decide (c ∉ df.cols)) = [r] →
      e3 = ReadErr.missingCols [r] f.name df.cols ∧
      errMessage e3 = "Missing columns " ++ toString [r] ++ " in file " ++
        f.name ++ ". Current columns are: " ++ toString df.cols := by
  constructor
  · unfold read_csv_flexible
    rw [h1, h2, h3]
  · intro df r hdec hfilter
    have h3' : tryEncoding f required Enc.latin1 =
        Except.error (ReadErr.missingCols [r] f.name df.cols) := by
      unfold tryEncoding
      rw [hdec]
      simp only []
      rw [hfilter]
      simp
    rw [h3'] at h3
    cases h3
    exact ⟨rfl, rfl⟩

/-- Witness file for C2: no encoding decodes except latin-1, whose parse
misses exactly the required column `"a"`. -/
def c2File : PFile :=
  { name := "w2.csv",
    decode := fun e =>
      match e with
      | Enc.utf8sig => none
      | Enc.utf8 => none
      | Enc.latin1 => some { cols := ["b"], rows := [[Cell.num 2]] } }

theorem read_csv_flexible_last_error_witness :
    read_csv_flexible c2File ["a", "b"] =
      Except.error (ReadErr.missingCols ["a"] "w2.csv" ["b"]) :=
  (read_csv_flexible_last_error c2File ["a", "b"]
    (ReadErr.decodeErr Enc.utf8sig) (ReadErr.decodeErr Enc.utf8)
    (ReadErr.missingCols ["a"] "w2.csv" ["b"])
    (by decide) (by decide) (by decide)).1

/-!
## C6: absent contacts file
-/

/-- C6: when the contacts file does not exist, `load_contact_data`
returns, without error, an empty table whose columns are exactly
municipality, service_name, phone, website. -/
theorem load_contact_data_absent (env : Env) (h : env.contactsExists = false) :
    load_contact_data env =
      Except.ok { cols := ["municipality", "service_name", "phone", "website"],
                  rows := [] } := by
  simp [load_contact_data, h, contactRequired]

def c6Env : Env :=
  { supportFile := { name := "piggdekk_support.csv", decode := fun _ => none },
    contactsFile := { name := "municipality_contacts.csv", decode := fun _ => none },
    contactsExists := false }

theorem load_contact_data_absent_witness :
    load_contact_data c6Env =
      Except.ok { cols := ["municipality", "service_name", "phone", "website"],
                  rows := [] } :=
  load_contact_data_absent c6Env rfl

/-!
## C8: the All/All filter combination is the identity
-/

/-- C8: applying the filter combination county = "All" and support filter
= "All" to any merged table returns the table itself, row for row. -/
theorem applyFilters_all_all (df : DFrame) : applyFilters df "All" "All" = df := by
  simp [applyFilters]

/-!
## C7: the filter engine returns exactly the conjunction of the predicates
-/

/-- The county predicate of the sidebar: pass everything when the
selection is "All", else keep rows whose county cell equals the selected
county. -/
def countyPred (df : DFrame) (county : String) (r : List Cell) : Bool :=
  decide (county = "All") || decide (cellAt df.cols r "county" = Cell.str county)

/-- The support-status predicate of the sidebar tri-state. -/
def supportPred (df : DFrame) (supportF : String) (r : List Cell) : Bool :=
  if supportF = "With support" then
    decide (cellAt df.cols r "has_support" = Cell.bool true)
  else if supportF = "Without support" then
    decide (cellAt df.cols r "has_support" = Cell.bool false)
  else true

/-- The three-row example table of the spec: one supported and two
unsupported municipalities. -/
def c7Df : DFrame :=
  { cols := ["municipality", "county", "has_support"],
    rows := [[Cell.str "A", Cell.str "X", Cell.bool true],
             [Cell.str "B", Cell.str "X", Cell.bool false],
             [Cell.str "C", Cell.str "Y", Cell.bool false]] }

/-- C7: the filter engine keeps exactly the rows satisfying the
conjunction of the active predicates (and no others, in order); in
particular, "Without support" on the three-row example returns exactly
the two rows with has_support = false. -/
theorem applyFilters_conjunction (df : DFrame) (county supportF : String) :
    (applyFilters df county supportF).cols = df.cols ∧
    (applyFilters df county supportF).rows =
      df.rows.filter (fun r => supportPred df supportF r && countyPred df county r) ∧
    applyFilters c7Df "All" "Without support" =
      { cols := ["municipality", "county", "has_support"],
        rows := [[Cell.str "B", Cell.str "X", Cell.bool false],
                 [Cell.str "C", Cell.str "Y", Cell.bool false]] } := by
  refine ⟨?_, ?_, by decide⟩
  · unfold applyFilters
    by_cases h1 : county = "All" <;>
      by_cases h2 : supportF = "With support" <;>
        by_cases h3 : supportF = "Without support" <;>
          simp [h1, h2, h3]
  · unfold applyFilters countyPred supportPred
    by_cases h1 : county = "All" <;>
      by_cases h2 : supportF = "With support" <;>
        by_cases h3 : supportF = "Without support" <;>
          simp [h1, h2, h3, List.filter_filter]

/-!
## C9: the maximum-payment KPI
-/

/-- Whether a cell is a numeric value. -/
def isNum : Cell → Bool
  | Cell.num _ => true
  | _ => false

/-- The numeric value of a cell, when it is one. -/
def cellNum? : Cell → Option Int
  | Cell.num n => some n
  | _ => none

/-- The fold `Series.max` performs agrees with the mathematical maximum
of the numeric values when every cell is numeric. -/
lemma seriesMax_eq (n : Int) (xs : List Cell)
    (h : ∀ c ∈ xs, isNum c = true) :
    seriesMax (Cell.num n) xs = (xs.filterMap cellNum?).foldl max n := by
  induction xs generalizing n with
  | nil => simp [seriesMax, cellNum?]
  | cons c cs ih =>
    cases c with
    | num m =>
      have hstep : seriesMax (Cell.num n) (Cell.num m :: cs) =
          seriesMax (Cell.num (max n m)) cs := rfl
      rw [hstep, ih (max n m) (fun c hc => h c (by simp [hc]))]
      rfl
    | str s => exact absurd (h (Cell.str s) (by simp)) (by simp [isNum])
    | bool b => exact absurd (h (Cell.bool b) (by simp)) (by simp [isNum])
    | nan => exact absurd (h Cell.nan (by simp)) (by simp [isNum])

/-- C9: on a numeric payment column, the maximum-payment KPI equals the
maximum of the non-null payment values among the supported rows of the
view, and it is the "no data" sentinel (`none`, rendered "-") exactly
when every supported payment is null. -/
theorem kpiMaxPayment_max (view : DFrame)
    (h : ∀ c ∈ validPayments view, isNum c = true) :
    kpiMaxPayment view = ((validPayments view).filterMap cellNum?).max? ∧
    (kpiMaxPayment view = none ↔ validPayments view = []) := by
  cases hv : validPayments view with
  | nil =>
    constructor
    · simp [kpiMaxPayment, hv]
    · simp [kpiMaxPayment, hv]
  | cons x xs =>
    have hx : isNum x = true := by
      have := h x (by rw [hv]; simp)
      exact this
    cases x with
    | num n =>
      have hxs : ∀ c ∈ xs, isNum c = true := by
        intro c hc
        exact h c (by rw [hv]; simp [hc])
      constructor
      · have hk : kpiMaxPayment view = some (seriesMax (Cell.num n) xs) := by
          simp [kpiMaxPayment, hv]
        rw [hk, seriesMax_eq n xs hxs]
        simp [cellNum?, List.max?]
      · constructor
        · intro hnone
          have hk : kpiMaxPayment view = some (seriesMax (Cell.num n) xs) := by
            simp [kpiMaxPayment, hv]
          rw [hk] at hnone
          cases hnone
        · intro hnil
          exact absurd hnil (by simp)
    | str s => simp [isNum] at hx
    | bool b => simp [isNum] at hx
    | nan => simp [isNum] at hx

/-- The spec's KPI example view: supported payments 100, null, 250. -/
def c9View : DFrame :=
  { cols := ["has_support", "payment_per_tire"],
    rows := [[Cell.bool true, Cell.num 100], [Cell.bool true, Cell.nan],
             [Cell.bool true, Cell.num 250]] }

/-- A view whose supported payments are all null (an unsupported row's
payment does not count). -/
def c9ViewNull : DFrame :=
  { cols := ["has_support", "payment_per_tire"],
    rows := [[Cell.bool true, Cell.nan], [Cell.bool false, Cell.num 999]] }

theorem kpiMaxPayment_max_witness :
    kpiMaxPayment c9View = some 250 ∧ kpiMaxPayment c9ViewNull = none := by
  constructor
  · have h := (kpiMaxPayment_max c9View (by decide)).1
    rw [h]
    decide
  · exact (kpiMaxPayment_max c9ViewNull (by decide)).2.mpr (by decide)

/-!
## C10: `astype(bool)` coerces by truthiness and rejects nothing
-/

/-- A successful `findIdx?` index is within bounds. -/
lemma findIdx?_lt_length {α : Type} (p : α → Bool) (l : List α) (i : Nat)
    (h : l.findIdx? p = some i) : i < l.length := by
  have := List.findIdx?_eq_some_iff_findIdx_eq.mp h
  omega

/-- Applying a cell transformation at the index of a column rewrites
exactly that column's cell, as seen through `cellAt`. -/
lemma cellAt_mapIdx (cols : List String) (r : List Cell) (i : Nat)
    (c0 : String) (g : Cell → Cell)
    (hi : cols.findIdx? (fun x => decide (x = c0)) = some i)
    (hlen : cols.length ≤ r.length) :
    cellAt cols (r.mapIdx (fun j c => if j = i then g c else c)) c0 =
      g (cellAt cols r c0) := by
  have hlt : i < cols.length := findIdx?_lt_length _ _ _ hi
  have hltr : i < r.length := lt_of_lt_of_le hlt hlen
  unfold cellAt
  rw [hi]
  simp only [List.getD_eq_getElem?_getD]
  rw [List.getElem?_eq_getElem (by simpa using hltr), List.getElem?_eq_getElem hltr]
  simp

/-- A column present in the header has an index. -/
lemma findIdx?_of_mem (cols : List String) (c0 : String) (h : c0 ∈ cols) :
    ∃ i, cols.findIdx? (fun x => decide (x = c0)) = some i := by
  cases hfind : cols.findIdx? (fun x => decide (x = c0)) with
  | some i => exact ⟨i, rfl⟩
  | none =>
    rw [List.findIdx?_eq_none_iff] at hfind
    have := hfind c0 h
    simp at this

/-- C10: after `load_support_data` succeeds, every `has_support` cell of
the result is the boolean obtained from the original cell by Python
truthiness — a missing (NaN) value and every non-empty string (including
"False") become True, the empty string and zero become False — and no row
is rejected: the loader returns a table for every readable file. -/
theorem load_support_data_truthiness (env : Env) (df0 : DFrame)
    (h : read_csv_flexible env.supportFile supportRequired = Except.ok df0)
    (hrect : ∀ r ∈ df0.rows, df0.cols.length ≤ r.length) :
    load_support_data env = Except.ok (astypeBool df0 "has_support") ∧
    (astypeBool df0 "has_support").cols = df0.cols ∧
    (∀ k : Nat, k < df0.rows.length →
      cellAt df0.cols ((astypeBool df0 "has_support").rows.getD k []) "has_support" =
        Cell.bool (pyBool (cellAt df0.cols (df0.rows.getD k []) "has_support"))) ∧
    pyBool Cell.nan = true ∧
    (∀ s : String, s ≠ "" → pyBool (Cell.str s) = true) ∧
    pyBool (Cell.str "False") = true ∧ pyBool (Cell.str "") = false ∧
    (∀ n : Int, pyBool (Cell.num n) = decide (n ≠ 0)) := by
  have hmem : "has_support" ∈ df0.cols :=
    (read_ok_required env.supportFile supportRequired df0 h).2 "has_support" (by decide)
  obtain ⟨i, hi⟩ := findIdx?_of_mem df0.cols "has_support" hmem
  have hast : astypeBool df0 "has_support" =
      { cols := df0.cols,
        rows := df0.rows.map (fun r =>
          r.mapIdx (fun j c => if j = i then Cell.bool (pyBool c) else c)) } := by
    unfold astypeBool
    rw [hi]
  refine ⟨?_, ?_, ?_, rfl, ?_, by decide, by decide, ?_⟩
  · simp [load_support_data, h]
  · rw [hast]
  · intro k hk
    rw [hast]
    simp only []
    have hkm : k < (df0.rows.map (fun r =>
        r.mapIdx (fun j c => if j = i then Cell.bool (pyBool c) else c))).length := by
      simpa using hk
    rw [List.getD_eq_getElem?_getD, List.getElem?_eq_getElem hkm,
        List.getD_eq_getElem?_getD, List.getElem?_eq_getElem hk]
    simp only [List.getElem_map, Option.getD_some]
    exact cellAt_mapIdx df0.cols (df0.rows.get ⟨k, hk⟩) i "has_support"
      (fun c => Cell.bool (pyBool c)) hi
      (hrect (df0.rows.get ⟨k, hk⟩) (by apply List.get_mem))
  · intro s hs
    simp [pyBool, hs]
  · intro n
    rfl

/-- Witness support frame for the truthiness theorem: five rows whose
`has_support` values are NaN, "False", "no", "", and 0. -/
def c10Df : DFrame :=
  { cols := supportRequired,
    rows := [
      [Cell.str "Oslo", Cell.str "Oslo", Cell.nan, Cell.num 100, Cell.num 4,
       Cell.num 400, Cell.str "2024-01-01", Cell.str "2024-12-31",
       Cell.num 59, Cell.num 10, Cell.str "u"],
      [Cell.str "Bergen", Cell.str "Vestland", Cell.str "False", Cell.num 100,
       Cell.num 4, Cell.num 400, Cell.str "2024-01-01", Cell.str "2024-12-31",
       Cell.num 60, Cell.num 5, Cell.str "u"],
      [Cell.str "Asker", Cell.str "Akershus", Cell.str "no", Cell.num 100,
       Cell.num 4, Cell.num 400, Cell.str "2024-01-01", Cell.str "2024-12-31",
       Cell.num 59, Cell.num 10, Cell.str "u"],
      [Cell.str "Lier", Cell.str "Buskerud", Cell.str "", Cell.num 100,
       Cell.num 4, Cell.num 400, Cell.str "2024-01-01", Cell.str "2024-12-31",
       Cell.num 59, Cell.num 10, Cell.str "u"],
      [Cell.str "Voss", Cell.str "Vestland", Cell.num 0, Cell.num 100,
       Cell.num 4, Cell.num 400, Cell.str "2024-01-01", Cell.str "2024-12-31",
       Cell.num 60, Cell.num 6, Cell.str "u"]] }

def c10Env : Env :=
  { supportFile := { name := "piggdekk_support.csv", decode := fun _ => some c10Df },
    contactsFile := { name := "municipality_contacts.csv", decode := fun _ => none },
    contactsExists := false }

theorem load_support_data_truthiness_witness :
    load_support_data c10Env = Except.ok (astypeBool c10Df "has_support") ∧
    cellAt c10Df.cols ((astypeBool c10Df "has_support").rows.getD 0 []) "has_support" =
      Cell.bool true ∧
    cellAt c10Df.cols ((astypeBool c10Df "has_support").rows.getD 3 []) "has_support" =
      Cell.bool false := by
  have h := load_support_data_truthiness c10Env c10Df (by decide) (by decide)
  refine ⟨h.1, ?_, ?_⟩
  · rw [h.2.2.1 0 (by decide)]
    decide
  · rw [h.2.2.1 3 (by decide)]
    decide

/-!
## C5: the coercion step never fails
-/

/-- C5 (amended): the `astype(bool)` coercion of `has_support` introduces
no failure: `load_support_data` fails exactly when the flexible reader
fails (with the same error), and whenever the reader returns a table the
loader returns the coerced table — non-boolean-coercible values are
silently truthiness-converted, never surfaced. -/
theorem load_support_data_never_fails (env : Env) :
    (∀ e, load_support_data env = Except.error e ↔
      read_csv_flexible env.supportFile supportRequired = Except.error e) ∧
    (∀ df0, read_csv_flexible env.supportFile supportRequired = Except.ok df0 →
      load_support_data env = Except.ok (astypeBool df0 "has_support")) := by
  constructor
  · intro e
    unfold load_support_data
    cases h : read_csv_flexible env.supportFile supportRequired with
    | error e0 => simp [h]
    | ok df => simp [h]
  · intro df0 h
    simp [load_support_data, h]

/-- Counterexample support frame for C5 as stated: `has_support` holds
the non-boolean-coercible string "no". -/
def c5Df : DFrame :=
  { cols := supportRequired,
    rows := [[Cell.str "Asker", Cell.str "Akershus", Cell.str "no",
              Cell.num 100, Cell.num 4, Cell.num 400, Cell.str "2024-01-01",
              Cell.str "2024-12-31", Cell.num 59, Cell.num 10, Cell.str "u"]] }

def c5Env : Env :=
  { supportFile := { name := "piggdekk_support.csv", decode := fun _ => some c5Df },
    contactsFile := { name := "municipality_contacts.csv", decode := fun _ => none },
    contactsExists := false }

/-- C5 counterexample: on a support file whose `has_support` value is the
non-boolean-coercible string "no", loading does not fail — it returns a
table, with the value silently coerced to True. -/
theorem load_support_data_no_rejection_counterexample :
    load_support_data c5Env =
      Except.ok
        { cols := supportRequired,
          rows := [[Cell.str "Asker", Cell.str "Akershus", Cell.bool true,
                    Cell.num 100, Cell.num 4, Cell.num 400, Cell.str "2024-01-01",
                    Cell.str "2024-12-31", Cell.num 59, Cell.num 10,
                    Cell.str "u"]] } := by
  decide

theorem load_support_data_never_fails_witness :
    load_support_data c5Env = Except.ok (astypeBool c5Df "has_support") :=
  (load_support_data_never_fails c5Env).2 c5Df (by decide)

/-!
## C4: merging with an empty contacts table
-/

/-- Mapping a singleton-producing function over a list and flattening is
the plain map. -/
lemma flatMap_singleton_eq_map {α β : Type} (g : α → β) (l : List α) :
    l.flatMap (fun a => [g a]) = l.map g := by
  induction l with
  | nil => rfl
  | cons a t ih => simp [List.flatMap_cons, ih]

/-- Flattened maps of pointwise-equal functions agree. -/
lemma flatMap_congr_fn {α β : Type} (f g : α → List β) (l : List α)
    (h : ∀ a ∈ l, f a = g a) : l.flatMap f = l.flatMap g := by
  induction l with
  | nil => rfl
  | cons a t ih =>
    simp only [List.flatMap_cons]
    rw [h a (by simp), ih (fun a ha => h a (by simp [ha]))]

/-- C4: merging a support table with the empty contacts table (the absent
contacts file) yields exactly one merged row per support row, each the
support row itself padded with null service_name, phone, website cells;
the contact-origin columns are appended to the support columns.  The
hypothesis that the support table does not itself use the three contact
column names reflects the suffix rule: without collisions the right
columns keep their plain names. -/
theorem build_merged_data_empty_contacts (env : Env) (support : DFrame)
    (hs : load_support_data env = Except.ok support)
    (hc : env.contactsExists = false)
    (hdisj : ∀ c ∈ ["service_name", "phone", "website"], c ∉ support.cols) :
    build_merged_data env =
      Except.ok
        { cols := support.cols ++ ["service_name", "phone", "website"],
          rows := support.rows.map (fun r => r ++ [Cell.nan, Cell.nan, Cell.nan]) } ∧
    (support.rows.map (fun r => r ++ [Cell.nan, Cell.nan, Cell.nan])).length =
      support.rows.length := by
  have hcontacts : load_contact_data env =
      Except.ok { cols := contactRequired, rows := [] } := by
    simp [load_contact_data, hc]
  have hcols : mergeRightCols support.cols contactRequired "municipality" =
      ["service_name", "phone", "website"] := by
    unfold mergeRightCols contactRequired
    simp [hdisj "service_name" (by simp), hdisj "phone" (by simp),
      hdisj "website" (by simp)]
  have hrow : ∀ lrow, mergeRow support.cols contactRequired "municipality" [] lrow =
      [lrow ++ [Cell.nan, Cell.nan, Cell.nan]] := by
    intro lrow
    unfold mergeRow
    simp [contactRequired]
  constructor
  · unfold build_merged_data
    rw [hs, hcontacts]
    unfold pdMerge
    simp only [hcols]
    have : support.rows.flatMap
        (mergeRow support.cols contactRequired "municipality" []) =
        support.rows.map (fun r => r ++ [Cell.nan, Cell.nan, Cell.nan]) := by
      calc support.rows.flatMap (mergeRow support.cols contactRequired "municipality" [])
          = support.rows.flatMap (fun r => [r ++ [Cell.nan, Cell.nan, Cell.nan]]) :=
            flatMap_congr_fn _ _ _ (fun r _ => hrow r)
        _ = support.rows.map (fun r => r ++ [Cell.nan, Cell.nan, Cell.nan]) :=
            flatMap_singleton_eq_map _ _
    rw [this]
  · simp

/-- Witness support frame for the empty-contacts merge. -/
def c4Df : DFrame :=
  { cols := supportRequired,
    rows := [[Cell.str "Oslo", Cell.str "Oslo", Cell.str "True",
              Cell.num 150, Cell.num 4, Cell.num 600, Cell.str "2024-01-01",
              Cell.str "2024-12-31", Cell.num 59, Cell.num 10, Cell.str "u"],
             [Cell.str "Bergen", Cell.str "Vestland", Cell.str "",
              Cell.nan, Cell.nan, Cell.nan, Cell.nan,
              Cell.nan, Cell.num 60, Cell.num 5, Cell.str "u"]] }

def c4Env : Env :=
  { supportFile := { name := "piggdekk_support.csv", decode := fun _ => some c4Df },
    contactsFile := { name := "municipality_contacts.csv", decode := fun _ => none },
    contactsExists := false }

theorem build_merged_data_empty_contacts_witness :
    build_merged_data c4Env =
      Except.ok
        { cols := (astypeBool c4Df "has_support").cols ++
            ["service_name", "phone", "website"],
          rows := (astypeBool c4Df "has_support").rows.map
            (fun r => r ++ [Cell.nan, Cell.nan, Cell.nan]) } :=
  (build_merged_data_empty_contacts c4Env (astypeBool c4Df "has_support")
    (by decide) rfl (by decide)).1

/-!
## C3: encoding/delimiter invariance — supporting lemmas
-/

/-- UTF-8 encoding is the identity on ASCII text. -/
lemma utf8Encode_ascii (l : List Nat) (h : ∀ c ∈ l, c < 128) :
    utf8Encode l = l := by
  induction l with
  | nil => rfl
  | cons a t ih =>
    have ha : a < 128 := h a (by simp)
    have ht : utf8Encode t = t := ih (fun c hc => h c (by simp [hc]))
    unfold utf8Encode at ht ⊢
    simp [List.flatMap_cons, utf8EncodeChar, ha, ht]

/-- The fuelled UTF-8 decoder is the identity on ASCII bytes when the
fuel covers the length. -/
lemma utf8DecodeAux_ascii (l : List Nat) (fuel : Nat)
    (h : ∀ c ∈ l, c < 128) (hfuel : l.length ≤ fuel) :
    utf8DecodeAux fuel l = some l := by
  induction l generalizing fuel with
  | nil => cases fuel <;> rfl
  | cons b bs ih =>
    cases fuel with
    | zero => simp at hfuel
    | succ f =>
      have hb : b < 128 := h b (by simp)
      have hone : utf8DecodeOne b bs = some (b, bs) := by
        unfold utf8DecodeOne
        rw [if_pos hb]
      unfold utf8DecodeAux
      rw [hone]
      show Option.map (fun t => b :: t) (utf8DecodeAux f bs) = some (b :: bs)
      rw [ih f (fun c hc => h c (by simp [hc])) (by simpa using hfuel)]
      rfl

/-- Strict UTF-8 decoding is the identity on ASCII bytes. -/
lemma utf8Decode_ascii (l : List Nat) (h : ∀ c ∈ l, c < 128) :
    utf8Decode l = some l :=
  utf8DecodeAux_ascii l l.length h (le_refl _)

/-- ASCII bytes never start with the byte-order mark. -/
lemma take_ne_bom (bs : List Nat) (h : ∀ c ∈ bs, c < 128) :
    bs.take 3 ≠ bomBytes := by
  intro heq
  have h239 : (239 : Nat) ∈ bs.take 3 := by
    rw [heq]
    simp [bomBytes]
  have hmem : (239 : Nat) ∈ bs := List.mem_of_mem_take h239
  have := h 239 hmem
  omega

/-- Every element of a join is the separator or an element of some part. -/
lemma mem_joinWith (d : Nat) :
    ∀ (ls : List (List Nat)) (x : Nat), x ∈ joinWith d ls →
      x = d ∨ ∃ l ∈ ls, x ∈ l
  | [], x, hx => by simp [joinWith] at hx
  | [f], x, hx => by
    simp only [joinWith] at hx
    exact Or.inr ⟨f, by simp, hx⟩
  | f :: g :: rest, x, hx => by
    simp only [joinWith, List.mem_append, List.mem_cons] at hx
    rcases hx with h | h | h
    · exact Or.inr ⟨f, by simp, h⟩
    · exact Or.inl h
    · rcases mem_joinWith d (g :: rest) x h with h1 | ⟨l, hl, hxl⟩
      · exact Or.inl h1
      · exact Or.inr ⟨l, by simp [List.mem_cons] at hl ⊢; tauto, hxl⟩

/-- The separator count of a join with separator-free parts is one less
than the number of parts. -/
lemma count_joinWith_self (d : Nat) :
    ∀ (ls : List (List Nat)), ls ≠ [] → (∀ l ∈ ls, d ∉ l) →
      (joinWith d ls).count d = ls.length - 1
  | [], h, _ => absurd rfl h
  | [f], _, hf => by
    simp [joinWith, List.count_eq_zero.2 (hf f (by simp))]
  | f :: g :: rest, _, hf => by
    have hrec := count_joinWith_self d (g :: rest) (by simp)
      (fun l hl => hf l (by simp [List.mem_cons] at hl ⊢; tauto))
    simp only [joinWith, List.count_append, List.count_cons]
    rw [List.count_eq_zero.2 (hf f (by simp)), hrec]
    simp

/-- A non-separator absent from every part is absent from the join. -/
lemma count_joinWith_other (x d : Nat) (hxd : x ≠ d) (ls : List (List Nat))
    (h : ∀ l ∈ ls, x ∉ l) : (joinWith d ls).count x = 0 := by
  rw [List.count_eq_zero]
  intro hmem
  rcases mem_joinWith d ls x hmem with h1 | ⟨l, hl, hxl⟩
  · exact hxd h1
  · exact h l hl hxl

/-- `joinWith` is `List.intercalate` with a singleton separator. -/
lemma joinWith_eq_intercalate (d : Nat) :
    ∀ ls : List (List Nat), joinWith d ls = [d].intercalate ls
  | [] => by simp [joinWith, List.intercalate]
  | [f] => by simp [joinWith, List.intercalate]
  | f :: g :: rest => by
    have ih := joinWith_eq_intercalate d (g :: rest)
    simp only [joinWith] at ih ⊢
    rw [ih]
    simp [List.intercalate, List.intersperse]

/-- Splitting a join of non-empty, separator-free parts recovers the
parts. -/
lemma splitOn_joinWith (d : Nat) (ls : List (List Nat)) (hne : ls ≠ [])
    (h : ∀ l ∈ ls, d ∉ l) : (joinWith d ls).splitOn d = ls := by
  rw [joinWith_eq_intercalate]
  exact List.splitOn_intercalate ls d h hne

/-- Unpacking `wfAscii`: non-empty content, a common width of at least
two, and good field characters throughout. -/
lemma wfAscii_spec (content : List (List (List Nat)))
    (hwf : wfAscii content = true) :
    content ≠ [] ∧
    ∃ w, 2 ≤ w ∧ ∀ line ∈ content, line.length = w ∧
      ∀ f ∈ line, ∀ c ∈ f, goodChar c = true := by
  cases content with
  | nil => simp [wfAscii] at hwf
  | cons l0 rest =>
    simp only [wfAscii, Bool.and_eq_true, List.all_eq_true,
      decide_eq_true_eq] at hwf
    obtain ⟨h2, hall⟩ := hwf
    refine ⟨by simp, l0.length, h2, ?_⟩
    intro line hline
    have hl := hall line hline
    exact ⟨hl.1, fun f hf c hc => hl.2 f hf c hc⟩

/-- A good field character is ASCII and none of the structural
characters. -/
lemma goodChar_spec (c : Nat) (h : goodChar c = true) :
    c < 128 ∧ c ≠ 10 ∧ c ≠ 44 ∧ c ≠ 9 ∧ c ≠ 59 := by
  simp only [goodChar, Bool.and_eq_true, decide_eq_true_eq] at h
  tauto

/-- A candidate delimiter never occurs inside a good field. -/
lemma delim_notin_field (d : Nat) (hd : d = 44 ∨ d = 9 ∨ d = 59)
    (f : List Nat) (hf : ∀ c ∈ f, goodChar c = true) : d ∉ f := by
  intro hmem
  have hg := goodChar_spec d (hf d hmem)
  rcases hd with h | h | h <;> subst h <;> tauto

/-- A newline never occurs inside a good field. -/
lemma newline_notin_field (f : List Nat) (hf : ∀ c ∈ f, goodChar c = true) :
    (10 : Nat) ∉ f := by
  intro hmem
  have hg := goodChar_spec 10 (hf 10 hmem)
  tauto

/-- A serialized record contains no newline. -/
lemma newline_notin_serializeLine (d : Nat) (hd : d = 44 ∨ d = 9 ∨ d = 59)
    (line : List (List Nat)) (hline : ∀ f ∈ line, ∀ c ∈ f, goodChar c = true) :
    (10 : Nat) ∉ serializeLine d line := by
  intro hmem
  rcases mem_joinWith d line 10 hmem with h | ⟨f, hf, hxf⟩
  · rcases hd with h1 | h1 | h1 <;> omega
  · exact newline_notin_field f (hline f hf) hxf

/-- Every character of a serialized record is ASCII. -/
lemma serializeLine_ascii (d : Nat) (hd : d = 44 ∨ d = 9 ∨ d = 59)
    (line : List (List Nat)) (hline : ∀ f ∈ line, ∀ c ∈ f, goodChar c = true) :
    ∀ c ∈ serializeLine d line, c < 128 := by
  intro c hc
  rcases mem_joinWith d line c hc with h | ⟨f, hf, hxf⟩
  · rcases hd with h1 | h1 | h1 <;> omega
  · exact (goodChar_spec c (hline f hf c hxf)).1

/-- The delimiter count of a serialized record is its field count minus
one. -/
lemma count_serializeLine_self (d : Nat) (hd : d = 44 ∨ d = 9 ∨ d = 59)
    (line : List (List Nat)) (hne : line ≠ [])
    (hline : ∀ f ∈ line, ∀ c ∈ f, goodChar c = true) :
    (serializeLine d line).count d = line.length - 1 :=
  count_joinWith_self d line hne
    (fun f hf => delim_notin_field d hd f (hline f hf))

/-- Other candidate delimiters do not occur in a serialized record. -/
lemma count_serializeLine_other (x d : Nat) (hx : x = 44 ∨ x = 9 ∨ x = 59)
    (hxd : x ≠ d)
    (line : List (List Nat)) (hline : ∀ f ∈ line, ∀ c ∈ f, goodChar c = true) :
    (serializeLine d line).count x = 0 :=
  count_joinWith_other x d hxd line
    (fun f hf => delim_notin_field x hx f (hline f hf))

/-- Splitting a serialized text on newlines recovers the serialized
records. -/
lemma splitOn_serializeCsv (d : Nat) (hd : d = 44 ∨ d = 9 ∨ d = 59)
    (content : List (List (List Nat))) (hwf : wfAscii content = true) :
    (serializeCsv d content).splitOn 10 = content.map (serializeLine d) := by
  obtain ⟨hne, w, hw2, hlines⟩ := wfAscii_spec content hwf
  apply splitOn_joinWith
  · simpa using hne
  · intro l hl
    rw [List.mem_map] at hl
    obtain ⟨line, hline, rfl⟩ := hl
    exact newline_notin_serializeLine d hd line (hlines line hline).2

/-- Every character of a serialized text is ASCII. -/
lemma serializeCsv_ascii (d : Nat) (hd : d = 44 ∨ d = 9 ∨ d = 59)
    (content : List (List (List Nat))) (hwf : wfAscii content = true) :
    ∀ c ∈ serializeCsv d content, c < 128 := by
  obtain ⟨hne, w, hw2, hlines⟩ := wfAscii_spec content hwf
  intro c hc
  rcases mem_joinWith 10 (content.map (serializeLine d)) c hc with h | ⟨l, hl, hxl⟩
  · omega
  · rw [List.mem_map] at hl
    obtain ⟨line, hline, rfl⟩ := hl
    exact serializeLine_ascii d hd line (hlines line hline).2 c hxl

/-- The writing delimiter is consistent on a serialized text. -/
lemma sniffConsistent_self (d : Nat) (hd : d = 44 ∨ d = 9 ∨ d = 59)
    (content : List (List (List Nat))) (hwf : wfAscii content = true) :
    sniffConsistent d ((serializeCsv d content).splitOn 10) = true := by
  obtain ⟨hne, w, hw2, hlines⟩ := wfAscii_spec content hwf
  rw [splitOn_serializeCsv d hd content hwf]
  cases content with
  | nil => simp at hne
  | cons l0 rest =>
    have h0 := hlines l0 (by simp)
    have hc0 : (serializeLine d l0).count d = l0.length - 1 :=
      count_serializeLine_self d hd l0 (by intro h; rw [h] at h0; simp at h0; omega) h0.2
    simp only [List.map_cons, sniffConsistent, List.all_eq_true, Bool.and_eq_true,
      decide_eq_true_eq]
    constructor
    · rw [hc0, h0.1]
      omega
    · intro l hl
      rw [List.mem_map] at hl
      obtain ⟨line, hline, rfl⟩ := hl
      have hli := hlines line (by simp [hline])
      have : (serializeLine d line).count d = line.length - 1 :=
        count_serializeLine_self d hd line
          (by intro h; rw [h] at hli; simp at hli; omega) hli.2
      rw [this, hc0, hli.1, h0.1]

/-- A different candidate delimiter is not consistent (it never occurs on
the first record). -/
lemma sniffConsistent_other (x d : Nat) (hx : x = 44 ∨ x = 9 ∨ x = 59)
    (hxd : x ≠ d) (hd : d = 44 ∨ d = 9 ∨ d = 59)
    (content : List (List (List Nat))) (hwf : wfAscii content = true) :
    sniffConsistent x ((serializeCsv d content).splitOn 10) = false := by
  obtain ⟨hne, w, hw2, hlines⟩ := wfAscii_spec content hwf
  rw [splitOn_serializeCsv d hd content hwf]
  cases content with
  | nil => simp at hne
  | cons l0 rest =>
    have h0 := hlines l0 (by simp)
    have hc0 : (serializeLine d l0).count x = 0 :=
      count_serializeLine_other x d hx hxd l0 h0.2
    simp only [List.map_cons, sniffConsistent, hc0]
    simp

/-- Sniffing a serialized text recovers the writing delimiter. -/
lemma sniffDelim_serializeCsv (d : Nat) (hd : d = 44 ∨ d = 9 ∨ d = 59)
    (content : List (List (List Nat))) (hwf : wfAscii content = true) :
    sniffDelim (serializeCsv d content) = some d := by
  have hself := sniffConsistent_self d hd content hwf
  rcases hd with h | h | h <;> subst h
  · unfold sniffDelim
    simp [List.find?_cons, hself]
  · have h44 : sniffConsistent 44 ((serializeCsv 9 content).splitOn 10) = false :=
      sniffConsistent_other 44 9 (by omega) (by omega) (by omega) content hwf
    unfold sniffDelim
    simp [List.find?_cons, hself, h44]
  · have h44 : sniffConsistent 44 ((serializeCsv 59 content).splitOn 10) = false :=
      sniffConsistent_other 44 59 (by omega) (by omega) (by omega) content hwf
    have h9 : sniffConsistent 9 ((serializeCsv 59 content).splitOn 10) = false :=
      sniffConsistent_other 9 59 (by omega) (by omega) (by omega) content hwf
    unfold sniffDelim
    simp [List.find?_cons, hself, h44, h9]

/-- Mapping a function that is the identity on every element is the
identity. -/
lemma map_congr_id {α : Type} (l : List α) (g : α → α)
    (h : ∀ a ∈ l, g a = a) : l.map g = l := by
  induction l with
  | nil => rfl
  | cons a t ih =>
    simp only [List.map_cons]
    rw [h a (by simp), ih (fun a ha => h a (by simp [ha]))]

/-- Splitting the serialized records on the sniffed delimiter recovers
the logical content. -/
lemma parse_serializeCsv (d : Nat) (hd : d = 44 ∨ d = 9 ∨ d = 59)
    (content : List (List (List Nat))) (hwf : wfAscii content = true) :
    ((serializeCsv d content).splitOn 10).map (fun line => line.splitOn d) =
      content := by
  obtain ⟨hne, w, hw2, hlines⟩ := wfAscii_spec content hwf
  rw [splitOn_serializeCsv d hd content hwf, List.map_map]
  apply map_congr_id
  intro line hline
  have hli := hlines line hline
  show (serializeLine d line).splitOn d = line
  apply splitOn_joinWith
  · intro h
    rw [h] at hli
    simp at hli
    omega
  · intro f hf
    exact delim_notin_field d hd f (hli.2 f hf)

/-- The first-attempt (`utf-8-sig`) decoding of any of the nine
encoding/delimiter variants recovers the serialized text. -/
lemma decodeBytes_utf8sig_encodeFile (content : List (List (List Nat)))
    (e : Enc) (d : Nat) (hd : d = 44 ∨ d = 9 ∨ d = 59)
    (hwf : wfAscii content = true) :
    decodeBytes Enc.utf8sig (encodeFile content e d) =
      some (serializeCsv d content) := by
  have hascii := serializeCsv_ascii d hd content hwf
  cases e with
  | utf8sig =>
    show utf8Decode (if (bomBytes ++ utf8Encode (serializeCsv d content)).take 3 = bomBytes
      then (bomBytes ++ utf8Encode (serializeCsv d content)).drop 3
      else bomBytes ++ utf8Encode (serializeCsv d content)) = _
    rw [utf8Encode_ascii _ hascii]
    have htake : (bomBytes ++ serializeCsv d content).take 3 = bomBytes :=
      List.take_left bomBytes (serializeCsv d content)
    have hdrop : (bomBytes ++ serializeCsv d content).drop 3 = serializeCsv d content :=
      List.drop_left bomBytes (serializeCsv d content)
    rw [htake, if_pos rfl, hdrop]
    exact utf8Decode_ascii _ hascii
  | utf8 =>
    show utf8Decode (if (utf8Encode (serializeCsv d content)).take 3 = bomBytes
      then (utf8Encode (serializeCsv d content)).drop 3
      else utf8Encode (serializeCsv d content)) = _
    rw [utf8Encode_ascii _ hascii, if_neg (take_ne_bom _ hascii)]
    exact utf8Decode_ascii _ hascii
  | latin1 =>
    show utf8Decode (if (serializeCsv d content).take 3 = bomBytes
      then (serializeCsv d content).drop 3
      else serializeCsv d content) = _
    rw [if_neg (take_ne_bom _ hascii)]
    exact utf8Decode_ascii _ hascii

/-- Reading any of the nine variants with the first attempted encoding
yields the logical table of the content. -/
lemma pdReadCsvBytes_encodeFile (content : List (List (List Nat)))
    (e : Enc) (d : Nat) (hd : d = 44 ∨ d = 9 ∨ d = 59)
    (hwf : wfAscii content = true) :
    pdReadCsvBytes (encodeFile content e d) Enc.utf8sig =
      some (tableOf content) := by
  obtain ⟨hne, w, hw2, hlines⟩ := wfAscii_spec content hwf
  unfold pdReadCsvBytes
  rw [decodeBytes_utf8sig_encodeFile content e d hd hwf]
  simp only []
  rw [sniffDelim_serializeCsv d hd content hwf]
  simp only []
  rw [parse_serializeCsv d hd content hwf]
  cases content with
  | nil => simp at hne
  | cons header dataRows => rfl

/-- A file whose first attempt parses with all required columns is read
as that parse. -/
lemma read_csv_flexible_of_utf8sig (f : PFile) (required : List String)
    (df : DFrame) (hdec : f.decode Enc.utf8sig = some df)
    (hall : ∀ c ∈ required, c ∈ df.cols) :
    read_csv_flexible f required = Except.ok df := by
  have h1 := tryEncoding_ok_of f required Enc.utf8sig df hdec hall
  unfold read_csv_flexible
  rw [h1]

/-- The code points of a string literal, for building concrete CSV
contents. -/
def strNats (s : String) : List Nat := s.toList.map Char.toNat

/-- C3 (amended): for well-formed ASCII content whose header contains
every required support column, the flexible reader returns the same
logical table — the table of the content — for every one of the nine
encoding (UTF-8-BOM, UTF-8, Latin-1) / delimiter (comma, tab, semicolon)
variants.  The ASCII restriction is what the counterexample forces: a
Latin-1 file whose non-ASCII bytes happen to form valid UTF-8 is decoded
differently by the earlier-tried UTF-8 attempt. -/
theorem read_csv_flexible_encoding_delimiter_invariant
    (content : List (List (List Nat))) (nm : String) (e1 e2 : Enc) (d1 d2 : Nat)
    (hwf : wfAscii content = true)
    (hd1 : d1 = 44 ∨ d1 = 9 ∨ d1 = 59) (hd2 : d2 = 44 ∨ d2 = 9 ∨ d2 = 59)
    (hreq : ∀ c ∈ supportRequired, c ∈ (tableOf content).cols) :
    read_csv_flexible (csvFile nm (encodeFile content e1 d1)) supportRequired =
      Except.ok (tableOf content) ∧
    read_csv_flexible (csvFile nm (encodeFile content e1 d1)) supportRequired =
      read_csv_flexible (csvFile nm (encodeFile content e2 d2)) supportRequired := by
  have r1 : read_csv_flexible (csvFile nm (encodeFile content e1 d1)) supportRequired =
      Except.ok (tableOf content) :=
    read_csv_flexible_of_utf8sig _ supportRequired (tableOf content)
      (pdReadCsvBytes_encodeFile content e1 d1 hd1 hwf) hreq
  have r2 : read_csv_flexible (csvFile nm (encodeFile content e2 d2)) supportRequired =
      Except.ok (tableOf content) :=
    read_csv_flexible_of_utf8sig _ supportRequired (tableOf content)
      (pdReadCsvBytes_encodeFile content e2 d2 hd2 hwf) hreq
  exact ⟨r1, r1.trans r2.symm⟩

/-- A small valid ASCII support content: the full required header and one
data record. -/
def c3Content : List (List (List Nat)) :=
  [supportRequired.map strNats,
   ["Oslo", "Oslo", "True", "150", "4", "600", "2024-01-01", "2024-12-31",
    "59.91", "10.75", "https://oslo.kommune.no"].map strNats]

set_option maxRecDepth 20000

theorem read_csv_flexible_encoding_delimiter_invariant_witness :
    read_csv_flexible
        (csvFile "piggdekk_support.csv" (encodeFile c3Content Enc.latin1 59))
        supportRequired =
      Except.ok (tableOf c3Content) :=
  (read_csv_flexible_encoding_delimiter_invariant c3Content
    "piggdekk_support.csv" Enc.latin1 Enc.utf8sig 59 44
    (by decide) (by decide) (by decide) (by decide)).1

/-- A support content whose municipality field holds the two Latin-1
characters `Ã` (0xC3) and `¦` (0xA6) — bytes that together form the
valid UTF-8 encoding of `æ`. -/
def c3BadContent : List (List (List Nat)) :=
  [supportRequired.map strNats,
   [[195, 166], strNats "Oslo", strNats "True", strNats "150", strNats "4",
    strNats "600", strNats "2024-01-01", strNats "2024-12-31",
    strNats "59.91", strNats "10.75", strNats "u"]]

/-- C3 counterexample: the Latin-1-written variant of this content is
decoded by the earlier-tried UTF-8-sig attempt into a different table
(municipality `æ`) than the UTF-8-written variant (municipality `Ã¦`),
so the two valid variants of the same logical content do not yield
identical tables. -/
theorem read_csv_flexible_encoding_variant_counterexample :
    read_csv_flexible
        (csvFile "piggdekk_support.csv" (encodeFile c3BadContent Enc.latin1 44))
        supportRequired ≠
      read_csv_flexible
        (csvFile "piggdekk_support.csv" (encodeFile c3BadContent Enc.utf8 44))
        supportRequired := by
  decide
